import Mathlib

/-!
# ec-cli acceptance harness: logger adapter, scenario hooks and the feature runner

A shallow embedding of

* `internal/acceptance/log/log.go` (package `log`): the `logger` adapter and `LoggerFor`;
* `acceptance/acceptance_test.go` (package `acceptance`): `InitializeScenario`,
  `setupContext` and `TestFeatures`.

Go values of interface type are embedded as `GoAny`, contexts as the immutable chain
that `context.WithValue` builds, and every call that leaves the function under study
(the testing handle, the file system, the scenario runner) is recorded as an event.
-/

/-! ## Shared Go data -/

/-- A live `testing.T`, identified by its address. -/
structure testing.T where
  addr : Nat
  deriving DecidableEq, Repr

/-- The fields of `godog.Scenario` the harness reads. -/
structure godog.Scenario where
  Id : String
  Name : String
  Uri : String
  deriving DecidableEq, Repr

/-- A Go value of type `interface{}`: `nil` is the nil interface, `testingT none` is a
nil pointer of type `*testing.T` held in a non-nil interface. -/
inductive GoAny where
  | nil
  | testingT (p : Option testing.T)
  | bool (b : Bool)
  | int (i : Int)
  | str (s : String)
  | scenario (sc : godog.Scenario)
  deriving DecidableEq, Repr

/-- Keys of package `testenv` that `acceptance_test.go` refers to. -/
inductive testenv.Key where
  | TestingT
  | PersistStubEnvironment
  | RestoreStubEnvironment
  | NoColors
  | Scenario
  deriving DecidableEq, Repr

/-- Context keys: values of `log.Testing` (an `int` type) and the `testenv` keys. Go
compares keys by dynamic type and value, so keys of different types never coincide. -/
inductive Key where
  | logTesting (n : Int)
  | testenv (k : testenv.Key)
  deriving DecidableEq, Repr

/-- The chain built by `context.Background()` and `context.WithValue`. -/
inductive Ctx where
  | Background
  | WithValue (parent : Ctx) (key : Key) (val : GoAny)
  deriving DecidableEq, Repr

/-- `ctx.Value(key)`: the innermost binding of `key`, the nil interface when there is none. -/
def Ctx.Value : Ctx → Key → GoAny
  | Ctx.Background, _ => GoAny.nil
  | Ctx.WithValue parent k v, key => if k = key then v else parent.Value key

/-- Whether `key` is bound somewhere along the chain. -/
def Ctx.binds : Ctx → Key → Bool
  | Ctx.Background, _ => false
  | Ctx.WithValue parent k _, key => k == key || parent.binds key

/-! ## Package `log` (internal/acceptance/log/log.go) -/

namespace log

/-- `const TestingKey Testing = 0`. -/
def TestingKey : Key := Key.logTesting 0

/-- `type logger struct { t *testing.T }`. -/
structure logger where
  t : Option testing.T
  deriving DecidableEq, Repr

/-- A run-time panic: a failed single-value type assertion, or a method call through a
nil `*testing.T`. -/
inductive Panic where
  | typeAssertion (key : Key) (held : GoAny)
  | nilPointerDereference
  deriving DecidableEq, Repr

/-- A method call that reached a live `testing.T`. -/
inductive SinkCall where
  | Log (recv : testing.T) (args : List GoAny)
  | Logf (recv : testing.T) (format : String) (args : List GoAny)
  deriving DecidableEq, Repr

/-- `func (l logger) Log(args ...interface{})`: `l.t.Log(args...)`. The receiver is
passed by value and the calls the sink has received are threaded through; through a nil
`l.t` the call panics and nothing reaches the sink. -/
def logger.Log (l : logger) (args : List GoAny) (sink : List SinkCall) :
    Except Panic (logger × List SinkCall) :=
  match l.t with
  | none => Except.error Panic.nilPointerDereference
  | some t => Except.ok (l, sink ++ [SinkCall.Log t args])

/-- `func (l logger) Logf(format string, args ...interface{})`: `l.t.Logf(format,
args...)`, which panics through a nil `l.t`. -/
def logger.Logf (l : logger) (format : String) (args : List GoAny) (sink : List SinkCall) :
    Except Panic (logger × List SinkCall) :=
  match l.t with
  | none => Except.error Panic.nilPointerDereference
  | some t => Except.ok (l, sink ++ [SinkCall.Logf t format args])

/-- `func (l logger) Printf(format string, args ...interface{})`: `l.Logf(format,
args...)`. -/
def logger.Printf (l : logger) (format : String) (args : List GoAny) (sink : List SinkCall) :
    Except Panic (logger × List SinkCall) :=
  l.Logf format args sink

/-- `func LoggerFor(ctx context.Context) Logger`: the single-value type assertion
`ctx.Value(TestingKey).(*testing.T)` panics unless the interface holds a `*testing.T`. -/
def LoggerFor (ctx : Ctx) : Except Panic logger :=
  match ctx.Value TestingKey with
  | GoAny.testingT p => Except.ok { t := p }
  | held => Except.error (Panic.typeAssertion TestingKey held)

end log

/-! ## Package `acceptance` (acceptance/acceptance_test.go) -/

/-- A Go `error` value; the nil error is `none : Option GoError`. -/
structure GoError where
  msg : String
  deriving DecidableEq, Repr

/-- A value of the `Logger` interface of package `acceptance/log`, identified by its
address. -/
structure ScenarioLogger where
  addr : Nat
  deriving DecidableEq, Repr

/-- The functions of this repository that the scenario hooks call and whose bodies are
not part of the embedded sources: they are parameters of the model, with the
signatures of their call sites. -/
structure HookDeps where
  /-- `log.LoggerFor(ctx)` of package `acceptance/log`: a logger and a context. -/
  LoggerFor : Ctx → ScenarioLogger × Ctx
  /-- `testenv.Persist(ctx)`: a flag and an error. -/
  Persist : Ctx → Bool × Option GoError

/-- Calls a scenario hook makes into other packages, in program order. -/
inductive HookCall where
  | LoggerFor (ctx : Ctx)
  | Name (l : ScenarioLogger) (name : String)
  | Persist (ctx : Ctx)
  deriving DecidableEq, Repr

/-- Whether a call is a call of `testenv.Persist`. -/
def HookCall.isPersist : HookCall → Bool
  | HookCall.Persist _ => true
  | _ => false

/-- What a scenario hook yields, `(context.Context, error)`, with the calls it made. -/
structure HookResult where
  calls : List HookCall
  ctx : Ctx
  err : Option GoError
  deriving DecidableEq, Repr

/-- The registrations collected in a `godog.ScenarioContext`. -/
structure godog.ScenarioContext where
  steps : List String
  before : List (Ctx → godog.Scenario → HookResult)
  after : List (Ctx → godog.Scenario → Option GoError → HookResult)

/-- A scenario context with nothing registered. -/
def godog.ScenarioContext.empty : godog.ScenarioContext :=
  { steps := [], before := [], after := [] }

/-- An open `*os.File`. -/
structure os.File where
  name : String
  deriving DecidableEq, Repr

/-- The `io.Writer` values that `TestFeatures` stores in `Options.Output`. -/
inductive io.Writer where
  | Stdout
  | File (f : os.File)
  deriving DecidableEq, Repr

/-- The fields of `godog.Options` that `TestFeatures` sets. -/
structure godog.Options where
  Format : String
  Paths : List String
  Randomize : Int
  Concurrency : Int
  TestingT : testing.T
  DefaultContext : Ctx
  Tags : String
  NoColors : Bool
  Output : io.Writer
  deriving DecidableEq, Repr

/-- The fields of `godog.TestSuite` that `TestFeatures` sets. -/
structure godog.TestSuite where
  Name : String
  ScenarioInitializer : godog.ScenarioContext → godog.ScenarioContext
  Options : godog.Options

/-- Meaning of `Options.Randomize` as the godog library documents it (the runner is a
third-party dependency, its code is no part of the repository): `0` means do not
randomize, `-1` lets the runner pick a seed from the clock, any other value is used
as the shuffle seed. Scenario order is shuffled exactly when the value is not `0`. -/
def godog.Options.shuffles (o : godog.Options) : Bool :=
  o.Randomize != 0

namespace acceptance

/-- The closure passed to `ctx.Before` in `InitializeScenario`. -/
def beforeScenario (deps : HookDeps) (ctx : Ctx) (sc : godog.Scenario) : HookResult :=
  let r := deps.LoggerFor ctx
  let logger := r.1
  let ctx1 := r.2
  { calls := [HookCall.LoggerFor ctx, HookCall.Name logger sc.Name]
    ctx := Ctx.WithValue ctx1 (Key.testenv testenv.Key.Scenario) (GoAny.scenario sc)
    err := none }

/-- The closure passed to `ctx.After` in `InitializeScenario`; `scenarioErr` is the
error of the scenario that just ended. -/
def afterScenario (deps : HookDeps) (ctx : Ctx) (_scenario : godog.Scenario)
    (_scenarioErr : Option GoError) : HookResult :=
  let err := (deps.Persist ctx).2
  { calls := [HookCall.Persist ctx], ctx := ctx, err := err }

/-- `func InitializeScenario(ctx *godog.ScenarioContext)`: the twelve `AddStepsTo`
calls in order, then the before and the after hook. -/
def InitializeScenario (deps : HookDeps) (ctx : godog.ScenarioContext) :
    godog.ScenarioContext :=
  { steps := ctx.steps ++ ["cli", "crypto", "git", "image", "kubernetes", "registry",
      "rekor", "tekton", "wiremock", "pipeline", "conftest", "tuf"]
    before := ctx.before ++ [beforeScenario deps]
    after := ctx.after ++ [afterScenario deps] }

/-- The command line as `flag.Parse()` sees it: `none` for a flag that is not supplied. -/
structure CommandLine where
  persist : Option Bool
  restore : Option Bool
  noColors : Option Bool
  tags : Option String
  seed : Option Int

/-- `flag.Bool("persist", false, ...)`. -/
def persist (args : CommandLine) : Bool := args.persist.getD false

/-- `flag.Bool("restore", false, ...)`. -/
def restore (args : CommandLine) : Bool := args.restore.getD false

/-- `flag.Bool("no-colors", false, ...)`. -/
def noColors (args : CommandLine) : Bool := args.noColors.getD false

/-- `flag.String("tags", "", ...)`. -/
def tags (args : CommandLine) : String := args.tags.getD ""

/-- `flag.Int64("seed", -1, ...)`. -/
def seed (args : CommandLine) : Int := args.seed.getD (-1)

/-- `func setupContext(t *testing.T) context.Context`. -/
def setupContext (args : CommandLine) (t : testing.T) : Ctx :=
  let ctx := Ctx.WithValue Ctx.Background (Key.testenv testenv.Key.TestingT)
    (GoAny.testingT (some t))
  let ctx := Ctx.WithValue ctx (Key.testenv testenv.Key.PersistStubEnvironment)
    (GoAny.bool (persist args))
  let ctx := Ctx.WithValue ctx (Key.testenv testenv.Key.RestoreStubEnvironment)
    (GoAny.bool (restore args))
  let ctx := Ctx.WithValue ctx (Key.testenv testenv.Key.NoColors) (GoAny.bool (noColors args))
  ctx

/-- What surrounds one run of `TestFeatures`: the environment variable, the command
line, and the results of the library and system calls it makes. -/
structure Env where
  /-- `os.Getenv("JUNIT_REPORT")`, read when the package is initialised. -/
  junitReportPath : String
  args : CommandLine
  /-- `filepath.Abs`. -/
  Abs : String → Except GoError String
  /-- `filepath.Join` of two elements. -/
  Join : String → String → String
  /-- `filepath.Glob`. -/
  Glob : String → Except GoError (List String)
  /-- `runtime.NumCPU()`. -/
  NumCPU : Int
  /-- `os.Create`. -/
  Create : String → Except GoError os.File
  /-- The status `suite.Run()` returns. -/
  Run : godog.TestSuite → Int
  /-- `os.IsNotExist(err)` for the error of `os.Stat`, after the suite has run. -/
  StatIsNotExist : String → Bool

/-- Effects of `TestFeatures`, in program order. -/
inductive Event where
  | Stdout (text : String)
  | Glob (pattern : String)
  | Create (name : String)
  | Run (suite : godog.TestSuite)
  | Fatal (msg : String)
  | Fail
  | Logf (msg : String)
  | Stat (name : String)
  | Close (f : os.File)

/-- State of the test function: its effects so far, `t.Failed()`, and whether
`t.FailNow` has ended it. -/
structure TestRun where
  events : List Event
  failed : Bool
  exited : Bool

/-- Append an effect that does not touch the test status. -/
def TestRun.emit (s : TestRun) (e : Event) : TestRun :=
  { s with events := s.events ++ [e] }

/-- `t.Fatal` and `t.Fatalf`: log, mark the test failed, stop it. -/
def TestRun.Fatal (s : TestRun) (msg : String) : TestRun :=
  { events := s.events ++ [Event.Fatal msg], failed := true, exited := true }

/-- `t.Fail`: mark the test failed and go on. -/
def TestRun.Fail (s : TestRun) : TestRun :=
  { s with events := s.events ++ [Event.Fail], failed := true }

/-- The suites handed to `suite.Run()`, in order. -/
def TestRun.suites (s : TestRun) : List godog.TestSuite :=
  s.events.filterMap fun e => match e with
    | Event.Run suite => some suite
    | _ => none

/-- The file names handed to `os.Create`, in order. -/
def TestRun.creates (s : TestRun) : List String :=
  s.events.filterMap fun e => match e with
    | Event.Create name => some name
    | _ => none

/-- `func TestFeatures(t *testing.T)`. -/
def TestFeatures (deps : HookDeps) (env : Env) (t : testing.T) : TestRun :=
  let s : TestRun := { events := [], failed := false, exited := false }
  let s := if env.junitReportPath ≠ "" then
      s.emit (Event.Stdout ("📄 Will write JUnit report to: " ++ env.junitReportPath ++ "\n"))
    else s
  match env.Abs "../features" with
  | Except.error err => s.Fatal err.msg
  | Except.ok featuresDir =>
    let s := s.emit (Event.Glob (env.Join featuresDir "*.feature"))
    match env.Glob (env.Join featuresDir "*.feature") with
    | Except.error err => s.Fatal err.msg
    | Except.ok files =>
      let s := s.emit (Event.Stdout ("🔍 Found " ++ toString files.length ++
        " feature files in " ++ featuresDir ++ "\n"))
      if files.length = 0 then s.Fatal "❌ No feature files found"
      else
        let ctx := setupContext env.args t
        let opts : godog.Options :=
          { Format := "pretty"
            Paths := [featuresDir]
            Randomize := seed env.args
            Concurrency := env.NumCPU
            TestingT := t
            DefaultContext := ctx
            Tags := tags env.args
            NoColors := noColors env.args
            Output := io.Writer.Stdout }
        -- from the construction of the suite to the return, deferred calls included
        let rest := fun (s : TestRun) (opts : godog.Options) (deferred : List Event) =>
          let suite : godog.TestSuite :=
            { Name := "ec-cli"
              ScenarioInitializer := InitializeScenario deps
              Options := opts }
          let s := s.emit (Event.Run suite)
          let s := if env.Run suite ≠ 0 then s.Fail else s
          let s := if env.junitReportPath ≠ "" then
              let s := s.emit (Event.Stat env.junitReportPath)
              if env.StatIsNotExist env.junitReportPath then
                s.emit (Event.Logf ("⚠️ JUnit report NOT created at: " ++ env.junitReportPath))
              else
                s.emit (Event.Logf ("✅ JUnit report created at: " ++ env.junitReportPath))
            else s
          { s with events := s.events ++ deferred }
        if env.junitReportPath ≠ "" then
          let s := s.emit (Event.Create env.junitReportPath)
          match env.Create env.junitReportPath with
          | Except.error err => s.Fatal ("failed to create JUnit report: " ++ err.msg)
          | Except.ok f =>
            rest s { opts with Format := "junit", Output := io.Writer.File f } [Event.Close f]
        else rest s opts []

/-- The suite `TestFeatures` builds from the options it has settled on. -/
def suiteWith (deps : HookDeps) (opts : godog.Options) : godog.TestSuite :=
  { Name := "ec-cli", ScenarioInitializer := InitializeScenario deps, Options := opts }

/-- The options literal of `TestFeatures` for a features directory. -/
def prettyOptions (env : Env) (t : testing.T) (featuresDir : String) : godog.Options :=
  { Format := "pretty"
    Paths := [featuresDir]
    Randomize := seed env.args
    Concurrency := env.NumCPU
    TestingT := t
    DefaultContext := setupContext env.args t
    Tags := tags env.args
    NoColors := noColors env.args
    Output := io.Writer.Stdout }

/-- The state of `TestFeatures` before it resolves the features directory. -/
def start (env : Env) : TestRun :=
  let s : TestRun := { events := [], failed := false, exited := false }
  if env.junitReportPath ≠ "" then
    s.emit (Event.Stdout ("📄 Will write JUnit report to: " ++ env.junitReportPath ++ "\n"))
  else s

/-! ### Sample inputs -/

/-- Hook dependencies whose `Persist` succeeds. -/
def sampleDeps : HookDeps :=
  { LoggerFor := fun ctx => ({ addr := 1 }, ctx)
    Persist := fun _ => (false, none) }

/-- Hook dependencies whose `Persist` fails. -/
def failingPersistDeps : HookDeps :=
  { LoggerFor := fun ctx => ({ addr := 1 }, ctx)
    Persist := fun _ => (false, some { msg := "persist failed" }) }

/-- A command line without flags. -/
def noFlags : CommandLine :=
  { persist := none, restore := none, noColors := none, tags := none, seed := none }

/-- One feature file, no report destination, a suite status of `1`. -/
def sampleEnv : Env :=
  { junitReportPath := ""
    args := noFlags
    Abs := fun _ => Except.ok "/repo/features"
    Join := fun dir elem => dir ++ "/" ++ elem
    Glob := fun _ => Except.ok ["/repo/features/validate.feature"]
    NumCPU := 4
    Create := fun name => Except.ok { name := name }
    Run := fun _ => 1
    StatIsNotExist := fun _ => false }

/-- As `sampleEnv`, with a report destination whose file can be created. -/
def reportEnv : Env :=
  { sampleEnv with junitReportPath := "report.xml" }

/-- As `reportEnv`, with a destination that cannot be created. -/
def badReportEnv : Env :=
  { sampleEnv with
    junitReportPath := "/nowhere/report.xml"
    Create := fun _ => Except.error { msg := "no such file or directory" } }

/-- As `sampleEnv`, with a features directory that holds no feature file. -/
def emptyEnv : Env :=
  { sampleEnv with Glob := fun _ => Except.ok [] }

/-- A scenario. -/
def sampleScenario : godog.Scenario :=
  { Id := "1", Name := "happy day", Uri := "features/validate.feature" }

/-- A testing handle. -/
def sampleT : testing.T := { addr := 7 }

end acceptance

/-! ## Lemmas on contexts -/

/-- A key that is bound nowhere along the chain looks up as the nil interface. -/
theorem Ctx.Value_of_not_binds (ctx : Ctx) (key : Key) (h : ctx.binds key = false) :
    ctx.Value key = GoAny.nil := by
  induction ctx with
  | Background => rfl
  | WithValue parent k v ih =>
    simp only [Ctx.binds, Bool.or_eq_false_iff, beq_eq_false_iff_ne, ne_eq] at h
    simp only [Ctx.Value, if_neg h.1]
    exact ih h.2

/-- Looking a key up in the node that binds it yields the bound value. -/
theorem Ctx.Value_WithValue_same (parent : Ctx) (key : Key) (v : GoAny) :
    (Ctx.WithValue parent key v).Value key = v := by
  simp [Ctx.Value]

/-- Looking up any other key passes through to the parent. -/
theorem Ctx.Value_WithValue_other (parent : Ctx) (k key : Key) (v : GoAny) (h : k ≠ key) :
    (Ctx.WithValue parent k v).Value key = parent.Value key := by
  simp [Ctx.Value, h]

/-! ## Lemmas on `TestFeatures` -/

namespace acceptance

/-- With feature files found and no report destination, `TestFeatures` runs the suite
on the options literal and fails exactly on a non-zero status. -/
theorem TestFeatures_without_report (deps : HookDeps) (env : Env) (t : testing.T)
    (dir : String) (files : List String)
    (hAbs : env.Abs "../features" = Except.ok dir)
    (hGlob : env.Glob (env.Join dir "*.feature") = Except.ok files)
    (hne : files ≠ [])
    (hcfg : env.junitReportPath = "") :
    TestFeatures deps env t =
      { events := [Event.Glob (env.Join dir "*.feature"),
          Event.Stdout ("🔍 Found " ++ toString files.length ++ " feature files in " ++
            dir ++ "\n"),
          Event.Run (suiteWith deps (prettyOptions env t dir))] ++
          (if env.Run (suiteWith deps (prettyOptions env t dir)) ≠ 0 then [Event.Fail] else [])
        failed := decide (env.Run (suiteWith deps (prettyOptions env t dir)) ≠ 0)
        exited := false } := by
  have hlen : files.length ≠ 0 := by
    intro h
    exact hne (List.length_eq_zero.mp h)
  unfold TestFeatures
  simp only [hAbs, hGlob, hcfg, hlen, suiteWith, prettyOptions, TestRun.emit, TestRun.Fail]
  by_cases hrun : env.Run (suiteWith deps (prettyOptions env t dir)) = 0
  · simp [suiteWith, prettyOptions] at hrun
    simp [hrun]
  · simp [suiteWith, prettyOptions] at hrun
    simp [hrun]

/-- With feature files found, a report destination configured and its file created,
`TestFeatures` runs the suite on the options literal with `Format` and `Output`
overwritten, and fails exactly on a non-zero status. -/
theorem TestFeatures_with_report (deps : HookDeps) (env : Env) (t : testing.T)
    (dir : String) (files : List String) (f : os.File)
    (hAbs : env.Abs "../features" = Except.ok dir)
    (hGlob : env.Glob (env.Join dir "*.feature") = Except.ok files)
    (hne : files ≠ [])
    (hcfg : env.junitReportPath ≠ "")
    (hCreate : env.Create env.junitReportPath = Except.ok f) :
    TestFeatures deps env t =
      { events := [Event.Stdout ("📄 Will write JUnit report to: " ++ env.junitReportPath ++
            "\n"),
          Event.Glob (env.Join dir "*.feature"),
          Event.Stdout ("🔍 Found " ++ toString files.length ++ " feature files in " ++
            dir ++ "\n"),
          Event.Create env.junitReportPath,
          Event.Run (suiteWith deps
            { prettyOptions env t dir with Format := "junit", Output := io.Writer.File f })] ++
          (if env.Run (suiteWith deps
              { prettyOptions env t dir with Format := "junit", Output := io.Writer.File f }) ≠ 0
            then [Event.Fail] else []) ++
          [Event.Stat env.junitReportPath,
           Event.Logf (if env.StatIsNotExist env.junitReportPath
             then "⚠️ JUnit report NOT created at: " ++ env.junitReportPath
             else "✅ JUnit report created at: " ++ env.junitReportPath),
           Event.Close f]
        failed := decide (env.Run (suiteWith deps
          { prettyOptions env t dir with Format := "junit", Output := io.Writer.File f }) ≠ 0)
        exited := false } := by
  have hlen : files.length ≠ 0 := by
    intro h
    exact hne (List.length_eq_zero.mp h)
  unfold TestFeatures
  simp only [hAbs, hGlob, hlen, hCreate, suiteWith, prettyOptions, TestRun.emit,
    TestRun.Fail]
  by_cases hrun : env.Run (suiteWith deps
      { prettyOptions env t dir with Format := "junit", Output := io.Writer.File f }) = 0
  · simp [suiteWith, prettyOptions] at hrun
    by_cases hstat : env.StatIsNotExist env.junitReportPath = true <;> simp [hrun, hcfg, hstat]
  · simp [suiteWith, prettyOptions] at hrun
    by_cases hstat : env.StatIsNotExist env.junitReportPath = true <;> simp [hrun, hcfg, hstat]

/-- The suites of a run that ended in `Fatal` before any `Run` event. -/
theorem TestRun.suites_Fatal (s : TestRun) (msg : String) :
    (s.Fatal msg).suites = s.suites := by
  simp [TestRun.Fatal, TestRun.suites, List.filterMap_append]

/-- Emitting an event other than `Run` leaves the suites as they are. -/
theorem TestRun.suites_emit (s : TestRun) (e : Event) (h : ∀ suite, e ≠ Event.Run suite) :
    (s.emit e).suites = s.suites := by
  cases e <;> simp_all [TestRun.emit, TestRun.suites, List.filterMap_append]

/-- The last event of a run that ended in `Fatal`. -/
theorem TestRun.getLast_Fatal (s : TestRun) (msg : String) :
    (s.Fatal msg).events.getLast? = some (Event.Fatal msg) := by
  simp [TestRun.Fatal]

/-- No suite has run when `TestFeatures` starts. -/
theorem start_suites (env : Env) : (start env).suites = [] := by
  unfold start
  by_cases h : env.junitReportPath = "" <;> simp [h, TestRun.emit, TestRun.suites]

/-- When `filepath.Abs` fails, `TestFeatures` ends in `Fatal` with that error. -/
theorem TestFeatures_Abs_error (deps : HookDeps) (env : Env) (t : testing.T) (err : GoError)
    (hAbs : env.Abs "../features" = Except.error err) :
    TestFeatures deps env t = (start env).Fatal err.msg := by
  unfold TestFeatures start
  simp only [hAbs]

/-- When `filepath.Glob` fails, `TestFeatures` ends in `Fatal` with that error. -/
theorem TestFeatures_Glob_error (deps : HookDeps) (env : Env) (t : testing.T) (dir : String)
    (err : GoError)
    (hAbs : env.Abs "../features" = Except.ok dir)
    (hGlob : env.Glob (env.Join dir "*.feature") = Except.error err) :
    TestFeatures deps env t =
      ((start env).emit (Event.Glob (env.Join dir "*.feature"))).Fatal err.msg := by
  unfold TestFeatures start
  simp only [hAbs, hGlob]

/-- When `filepath.Glob` matches nothing, `TestFeatures` ends in `Fatal`. -/
theorem TestFeatures_Glob_empty (deps : HookDeps) (env : Env) (t : testing.T) (dir : String)
    (hAbs : env.Abs "../features" = Except.ok dir)
    (hGlob : env.Glob (env.Join dir "*.feature") = Except.ok []) :
    TestFeatures deps env t =
      (((start env).emit (Event.Glob (env.Join dir "*.feature"))).emit
        (Event.Stdout ("🔍 Found " ++ toString (0 : Nat) ++ " feature files in " ++ dir ++
          "\n"))).Fatal "❌ No feature files found" := by
  unfold TestFeatures start
  simp only [hAbs, hGlob, List.length_nil, if_true]

/-- When the report file cannot be created, `TestFeatures` ends in `Fatal` right after
the attempt. -/
theorem TestFeatures_Create_error (deps : HookDeps) (env : Env) (t : testing.T)
    (dir : String) (files : List String) (err : GoError)
    (hAbs : env.Abs "../features" = Except.ok dir)
    (hGlob : env.Glob (env.Join dir "*.feature") = Except.ok files)
    (hne : files ≠ [])
    (hcfg : env.junitReportPath ≠ "")
    (hCreate : env.Create env.junitReportPath = Except.error err) :
    TestFeatures deps env t =
      ((((start env).emit (Event.Glob (env.Join dir "*.feature"))).emit
        (Event.Stdout ("🔍 Found " ++ toString files.length ++ " feature files in " ++ dir ++
          "\n"))).emit (Event.Create env.junitReportPath)).Fatal
        ("failed to create JUnit report: " ++ err.msg) := by
  have hlen : files.length ≠ 0 := by
    intro h
    exact hne (List.length_eq_zero.mp h)
  unfold TestFeatures start
  simp only [hAbs, hGlob, hlen, hCreate]
  simp [hcfg]

/-- Without a matching feature file `TestFeatures` stops before any suite runs. -/
theorem TestFeatures_stops_without_files (deps : HookDeps) (env : Env) (t : testing.T)
    (dir : String)
    (hAbs : env.Abs "../features" = Except.ok dir)
    (hGlob : ∀ files, env.Glob (env.Join dir "*.feature") = Except.ok files → files = []) :
    (TestFeatures deps env t).exited = true ∧
    (TestFeatures deps env t).failed = true ∧
    (TestFeatures deps env t).suites = [] := by
  cases hg : env.Glob (env.Join dir "*.feature") with
  | error err =>
    rw [TestFeatures_Glob_error deps env t dir err hAbs hg]
    refine ⟨rfl, rfl, ?_⟩
    rw [TestRun.suites_Fatal, TestRun.suites_emit _ _ (by intro suite h; cases h),
      start_suites]
  | ok files =>
    have hnil : files = [] := hGlob files hg
    subst hnil
    rw [TestFeatures_Glob_empty deps env t dir hAbs hg]
    refine ⟨rfl, rfl, ?_⟩
    rw [TestRun.suites_Fatal, TestRun.suites_emit _ _ (by intro suite h; cases h),
      TestRun.suites_emit _ _ (by intro suite h; cases h), start_suites]

end acceptance

/-! ## The logger adapter -/

namespace log

/-- C9: `LoggerFor` tells an unbound key from a key bound to a nil handle. With no
binding under `TestingKey` the lookup is the nil interface and the type assertion
panics; with a value of any other type it panics too; with a nil `*testing.T` bound
it returns a logger wrapping that nil handle; with a handle `t` bound it returns a
logger wrapping exactly `t`. -/
theorem LoggerFor_unbound_distinct_from_nil (ctx : Ctx) :
    (ctx.binds TestingKey = false →
      LoggerFor ctx = Except.error (Panic.typeAssertion TestingKey GoAny.nil)) ∧
    ((∀ p, ctx.Value TestingKey ≠ GoAny.testingT p) →
      LoggerFor ctx = Except.error (Panic.typeAssertion TestingKey (ctx.Value TestingKey))) ∧
    (ctx.Value TestingKey = GoAny.testingT none → LoggerFor ctx = Except.ok { t := none }) ∧
    (∀ t : testing.T, ctx.Value TestingKey = GoAny.testingT (some t) →
      LoggerFor ctx = Except.ok { t := some t }) := by
  refine ⟨?_, ?_, ?_, ?_⟩
  · intro h
    simp [LoggerFor, Ctx.Value_of_not_binds ctx TestingKey h]
  · intro h
    unfold LoggerFor
    cases hv : ctx.Value TestingKey with
    | testingT p => exact absurd hv (h p)
    | nil => rfl
    | bool b => rfl
    | int i => rfl
    | str s => rfl
    | scenario sc => rfl
  · intro h
    simp [LoggerFor, h]
  · intro t h
    simp [LoggerFor, h]

/-- Witness for C9: an empty context and a context binding a boolean under `TestingKey`
make `LoggerFor` panic; a bound nil handle and a bound live handle do not. -/
theorem LoggerFor_unbound_distinct_from_nil_witness :
    LoggerFor Ctx.Background = Except.error (Panic.typeAssertion TestingKey GoAny.nil) ∧
    LoggerFor (Ctx.WithValue Ctx.Background TestingKey (GoAny.bool true)) =
      Except.error (Panic.typeAssertion TestingKey (GoAny.bool true)) ∧
    LoggerFor (Ctx.WithValue Ctx.Background TestingKey (GoAny.testingT none)) =
      Except.ok { t := none } ∧
    LoggerFor (Ctx.WithValue (Ctx.WithValue Ctx.Background TestingKey
        (GoAny.testingT (some { addr := 7 }))) (Key.testenv testenv.Key.NoColors)
        (GoAny.bool false)) =
      Except.ok { t := some { addr := 7 } } :=
  ⟨(LoggerFor_unbound_distinct_from_nil Ctx.Background).1 rfl,
   (LoggerFor_unbound_distinct_from_nil
      (Ctx.WithValue Ctx.Background TestingKey (GoAny.bool true))).2.1
      (by intro p h; simp [Ctx.Value] at h),
   (LoggerFor_unbound_distinct_from_nil
      (Ctx.WithValue Ctx.Background TestingKey (GoAny.testingT none))).2.2.1
      (by simp [Ctx.Value]),
   (LoggerFor_unbound_distinct_from_nil _).2.2.2 { addr := 7 }
      (by simp [Ctx.Value, TestingKey])⟩

/-- C10: the logger adapter is a stateless forwarder. For every logger, format string
and argument list, `Printf` does exactly what `Logf` does. On a logger wrapping a
handle `t`, each of them returns after issuing the one call `t.Logf(format, args)`, and
`Log` returns after issuing the one call `t.Log(args)`, the arguments unchanged and in
order, appended to what the sink had received; the logger comes back as it was, so a
second call forwards just the same. Through a nil handle all three panic alike and
nothing reaches the sink. -/
theorem logger_forwards_unchanged (l : logger) (format : String) (args : List GoAny)
    (sink : List SinkCall) :
    l.Printf format args sink = l.Logf format args sink ∧
    (∀ t : testing.T, l.t = some t →
      l.Logf format args sink = Except.ok (l, sink ++ [SinkCall.Logf t format args]) ∧
      l.Printf format args sink = Except.ok (l, sink ++ [SinkCall.Logf t format args]) ∧
      l.Log args sink = Except.ok (l, sink ++ [SinkCall.Log t args]) ∧
      (∀ format2 args2, (l.Log args sink >>= fun r => r.1.Printf format2 args2 r.2) =
        Except.ok (l, sink ++ [SinkCall.Log t args, SinkCall.Logf t format2 args2]))) ∧
    (∀ r, (l.Log args sink = Except.ok r ∨ l.Logf format args sink = Except.ok r ∨
        l.Printf format args sink = Except.ok r) → r.1 = l ∧ ∃ call, r.2 = sink ++ [call]) ∧
    (l.t = none →
      l.Logf format args sink = Except.error Panic.nilPointerDereference ∧
      l.Printf format args sink = Except.error Panic.nilPointerDereference ∧
      l.Log args sink = Except.error Panic.nilPointerDereference) := by
  refine ⟨rfl, ?_, ?_, ?_⟩
  · intro t ht
    have hLogf : l.Logf format args sink =
        Except.ok (l, sink ++ [SinkCall.Logf t format args]) := by
      simp [logger.Logf, ht]
    have hLog : l.Log args sink = Except.ok (l, sink ++ [SinkCall.Log t args]) := by
      simp [logger.Log, ht]
    refine ⟨hLogf, hLogf, hLog, ?_⟩
    intro format2 args2
    rw [hLog]
    show l.Printf format2 args2 (sink ++ [SinkCall.Log t args]) = _
    simp [logger.Printf, logger.Logf, ht]
  · intro r hr
    cases ht : l.t with
    | none =>
      rcases hr with h | h | h <;>
        simp [logger.Log, logger.Logf, logger.Printf, ht] at h
    | some t =>
      rcases hr with h | h | h <;>
        simp only [logger.Log, logger.Logf, logger.Printf, ht, Except.ok.injEq] at h <;>
        subst h <;> exact ⟨rfl, _, rfl⟩
  · intro ht
    simp [logger.Log, logger.Logf, logger.Printf, ht]

/-- Witness for C10: a logger wrapping a live handle forwards a `Printf` as the one
`Logf` call after the call the sink already held; a logger wrapping the nil handle
panics. -/
theorem logger_forwards_unchanged_witness :
    (logger.mk (some { addr := 7 })).Printf "%s=%d" [GoAny.str "n", GoAny.int 3]
        [SinkCall.Log { addr := 7 } [GoAny.bool true]] =
      Except.ok (logger.mk (some { addr := 7 }),
        [SinkCall.Log { addr := 7 } [GoAny.bool true],
         SinkCall.Logf { addr := 7 } "%s=%d" [GoAny.str "n", GoAny.int 3]]) ∧
    (logger.mk none).Log [GoAny.str "n"] [] = Except.error Panic.nilPointerDereference :=
  ⟨((logger_forwards_unchanged (logger.mk (some { addr := 7 })) "%s=%d"
      [GoAny.str "n", GoAny.int 3] [SinkCall.Log { addr := 7 } [GoAny.bool true]]).2.1
      { addr := 7 } rfl).2.1,
   ((logger_forwards_unchanged (logger.mk none) "" [GoAny.str "n"] []).2.2.2 rfl).2.2⟩

end log

/-! ## The scenario hooks -/

namespace acceptance

/-- C8: for every incoming context and every scenario `sc`, the one before-scenario
hook that `InitializeScenario` registers first obtains the logger for the incoming
context and names it `sc.Name`, then returns a nil error and a new context node that
binds `testenv.Scenario` to `sc` over the context `LoggerFor` handed back; every other
key looks up as in that context, and an incoming context without a `Scenario` binding
still has none. -/
theorem beforeScenario_binds_scenario_in_child (deps : HookDeps) (ctx : Ctx)
    (sc : godog.Scenario) :
    (InitializeScenario deps godog.ScenarioContext.empty).before.map (fun h => h ctx sc) =
      [beforeScenario deps ctx sc] ∧
    (beforeScenario deps ctx sc).err = none ∧
    (beforeScenario deps ctx sc).calls =
      [HookCall.LoggerFor ctx, HookCall.Name (deps.LoggerFor ctx).1 sc.Name] ∧
    (beforeScenario deps ctx sc).ctx =
      Ctx.WithValue (deps.LoggerFor ctx).2 (Key.testenv testenv.Key.Scenario)
        (GoAny.scenario sc) ∧
    (beforeScenario deps ctx sc).ctx.Value (Key.testenv testenv.Key.Scenario) =
      GoAny.scenario sc ∧
    (∀ key, key ≠ Key.testenv testenv.Key.Scenario →
      (beforeScenario deps ctx sc).ctx.Value key = (deps.LoggerFor ctx).2.Value key) ∧
    (ctx.binds (Key.testenv testenv.Key.Scenario) = false →
      ctx.Value (Key.testenv testenv.Key.Scenario) = GoAny.nil ∧
      (beforeScenario deps ctx sc).ctx ≠ ctx) := by
  refine ⟨rfl, rfl, rfl, rfl, ?_, ?_, ?_⟩
  · exact Ctx.Value_WithValue_same _ _ _
  · intro key hkey
    exact Ctx.Value_WithValue_other _ _ _ _ (Ne.symm hkey)
  · intro h
    refine ⟨Ctx.Value_of_not_binds ctx _ h, ?_⟩
    intro heq
    have hb : (beforeScenario deps ctx sc).ctx.binds (Key.testenv testenv.Key.Scenario)
        = true := by
      simp [beforeScenario, Ctx.binds]
    rw [heq, h] at hb
    exact Bool.false_ne_true hb

/-- Witness for C8: on the context `setupContext` builds, which has no `Scenario`
binding, the hook yields a child that binds the scenario while the parent has none. -/
theorem beforeScenario_binds_scenario_in_child_witness :
    (setupContext noFlags sampleT).binds (Key.testenv testenv.Key.Scenario) = false ∧
    (beforeScenario sampleDeps (setupContext noFlags sampleT) sampleScenario).ctx.Value
      (Key.testenv testenv.Key.Scenario) = GoAny.scenario sampleScenario ∧
    (setupContext noFlags sampleT).Value (Key.testenv testenv.Key.Scenario) = GoAny.nil ∧
    (beforeScenario sampleDeps (setupContext noFlags sampleT) sampleScenario).ctx ≠
      setupContext noFlags sampleT :=
  ⟨by decide,
   (beforeScenario_binds_scenario_in_child sampleDeps (setupContext noFlags sampleT)
      sampleScenario).2.2.2.2.1,
   ((beforeScenario_binds_scenario_in_child sampleDeps (setupContext noFlags sampleT)
      sampleScenario).2.2.2.2.2.2 (by decide)).1,
   ((beforeScenario_binds_scenario_in_child sampleDeps (setupContext noFlags sampleT)
      sampleScenario).2.2.2.2.2.2 (by decide)).2⟩

/-- C4: for every scenario and every value of `scenarioErr`, nil or not, the one
after-scenario hook that `InitializeScenario` registers calls `testenv.Persist` exactly
once, on the incoming context, returns that context unchanged, and returns exactly the
error `Persist` returned, so a non-nil error if and only if `Persist` returned one. -/
theorem afterScenario_persists_exactly_once (deps : HookDeps) (ctx : Ctx)
    (scenario : godog.Scenario) (scenarioErr : Option GoError) :
    (InitializeScenario deps godog.ScenarioContext.empty).after.map
        (fun h => h ctx scenario scenarioErr) =
      [{ calls := [HookCall.Persist ctx], ctx := ctx, err := (deps.Persist ctx).2 }] ∧
    ((afterScenario deps ctx scenario scenarioErr).calls.filter HookCall.isPersist).length = 1 ∧
    (afterScenario deps ctx scenario scenarioErr).calls = [HookCall.Persist ctx] ∧
    (afterScenario deps ctx scenario scenarioErr).ctx = ctx ∧
    (afterScenario deps ctx scenario scenarioErr).err = (deps.Persist ctx).2 ∧
    ((afterScenario deps ctx scenario scenarioErr).err ≠ none ↔ (deps.Persist ctx).2 ≠ none) :=
  ⟨rfl, rfl, rfl, rfl, rfl, Iff.rfl⟩

/-- C5, as the code has it: when the scenario failed with `e1` and `Persist` fails with
`e2`, the after-scenario hook yields the incoming context and `e2`, and nothing else:
what it yields is the same for every value of `scenarioErr`, so the scenario failure is
not carried by the hook result and stays with the runner that passed it in. -/
theorem afterScenario_yields_only_persist_error (deps : HookDeps) (ctx : Ctx)
    (scenario : godog.Scenario) (e1 e2 : GoError) (flag : Bool)
    (hPersist : deps.Persist ctx = (flag, some e2)) :
    afterScenario deps ctx scenario (some e1) =
      { calls := [HookCall.Persist ctx], ctx := ctx, err := some e2 } ∧
    ∀ scenarioErr : Option GoError,
      afterScenario deps ctx scenario scenarioErr = afterScenario deps ctx scenario (some e1) := by
  refine ⟨?_, fun _ => rfl⟩
  simp [afterScenario, hPersist]

/-- Witness for C5 as amended: `Persist` failing with "persist failed" after a scenario
that failed with "step failed". -/
theorem afterScenario_yields_only_persist_error_witness :
    failingPersistDeps.Persist Ctx.Background = (false, some { msg := "persist failed" }) ∧
    afterScenario failingPersistDeps Ctx.Background sampleScenario
        (some { msg := "step failed" }) =
      { calls := [HookCall.Persist Ctx.Background], ctx := Ctx.Background,
        err := some { msg := "persist failed" } } :=
  ⟨rfl, (afterScenario_yields_only_persist_error failingPersistDeps Ctx.Background
    sampleScenario { msg := "step failed" } { msg := "persist failed" } false rfl).1⟩

/-- C5 as stated fails: with the scenario failed with "step failed" and `Persist`
failing with "persist failed", the hook yields only the persistence error, the very
result it yields after a scenario that passed; no observer of the hook result can
recover the scenario failure. -/
theorem afterScenario_scenario_error_not_in_result :
    afterScenario failingPersistDeps Ctx.Background sampleScenario
        (some { msg := "step failed" }) =
      { calls := [HookCall.Persist Ctx.Background], ctx := Ctx.Background,
        err := some { msg := "persist failed" } } ∧
    afterScenario failingPersistDeps Ctx.Background sampleScenario
        (some { msg := "step failed" }) =
      afterScenario failingPersistDeps Ctx.Background sampleScenario none ∧
    ¬ ∃ observe : HookResult → Option GoError, ∀ scenarioErr : Option GoError,
      observe (afterScenario failingPersistDeps Ctx.Background sampleScenario scenarioErr) =
        scenarioErr := by
  refine ⟨rfl, rfl, ?_⟩
  rintro ⟨observe, h⟩
  have h1 := h (some { msg := "step failed" })
  have h2 := h none
  have heq : afterScenario failingPersistDeps Ctx.Background sampleScenario
      (some { msg := "step failed" }) =
      afterScenario failingPersistDeps Ctx.Background sampleScenario none := rfl
  rw [heq, h2] at h1
  exact Option.noConfusion h1

end acceptance

/-! ## The feature runner -/

namespace acceptance

/-- C1: whenever the feature-file glob yields no matching file, be it an error or an
empty list, `TestFeatures` ends in a fatal error with the test marked failed, and no
suite is ever run; for the empty list the fatal message is the one about missing
feature files. -/
theorem TestFeatures_no_feature_files_is_fatal (deps : HookDeps) (env : Env)
    (t : testing.T) (dir : String)
    (hAbs : env.Abs "../features" = Except.ok dir)
    (hGlob : ∀ files, env.Glob (env.Join dir "*.feature") = Except.ok files → files = []) :
    (TestFeatures deps env t).exited = true ∧
    (TestFeatures deps env t).failed = true ∧
    (TestFeatures deps env t).suites = [] ∧
    (∃ msg, (TestFeatures deps env t).events.getLast? = some (Event.Fatal msg)) ∧
    (env.Glob (env.Join dir "*.feature") = Except.ok [] →
      (TestFeatures deps env t).events.getLast? =
        some (Event.Fatal "❌ No feature files found")) := by
  cases hg : env.Glob (env.Join dir "*.feature") with
  | error err =>
    rw [TestFeatures_Glob_error deps env t dir err hAbs hg]
    refine ⟨rfl, rfl, ?_, ⟨err.msg, TestRun.getLast_Fatal _ _⟩, ?_⟩
    · rw [TestRun.suites_Fatal, TestRun.suites_emit _ _ (by intro suite h; cases h),
        start_suites]
    · intro h
      cases h
  | ok files =>
    have hnil : files = [] := hGlob files hg
    subst hnil
    rw [TestFeatures_Glob_empty deps env t dir hAbs hg]
    refine ⟨rfl, rfl, ?_, ⟨_, TestRun.getLast_Fatal _ _⟩, fun _ => TestRun.getLast_Fatal _ _⟩
    rw [TestRun.suites_Fatal, TestRun.suites_emit _ _ (by intro suite h; cases h),
      TestRun.suites_emit _ _ (by intro suite h; cases h), start_suites]

/-- Witness for C1: a features directory without feature files. -/
theorem TestFeatures_no_feature_files_is_fatal_witness :
    emptyEnv.Abs "../features" = Except.ok "/repo/features" ∧
    (TestFeatures sampleDeps emptyEnv sampleT).exited = true ∧
    (TestFeatures sampleDeps emptyEnv sampleT).suites = [] ∧
    (TestFeatures sampleDeps emptyEnv sampleT).events.getLast? =
      some (Event.Fatal "❌ No feature files found") :=
  have h := TestFeatures_no_feature_files_is_fatal sampleDeps emptyEnv sampleT
    "/repo/features" rfl (by intro files hf; cases hf; rfl)
  ⟨rfl, h.1, h.2.2.1, h.2.2.2.2 rfl⟩

/-- C2: once the configuration checks have passed (feature files found, and the report
file created when a destination is configured), `TestFeatures` runs exactly one suite,
does not end in a fatal error, and is marked failed if and only if the status of that
suite is non-zero; two status functions that agree on whether the status is zero give
the same run. -/
theorem TestFeatures_failed_iff_status_nonzero (deps : HookDeps) (env : Env)
    (t : testing.T) (dir : String) (files : List String)
    (hAbs : env.Abs "../features" = Except.ok dir)
    (hGlob : env.Glob (env.Join dir "*.feature") = Except.ok files)
    (hne : files ≠ [])
    (hrep : env.junitReportPath = "" ∨
      ∃ f, env.Create env.junitReportPath = Except.ok f) :
    ∃ suite, (TestFeatures deps env t).suites = [suite] ∧
      (TestFeatures deps env t).exited = false ∧
      ((TestFeatures deps env t).failed = true ↔ env.Run suite ≠ 0) ∧
      ∀ run : godog.TestSuite → Int, (run suite ≠ 0 ↔ env.Run suite ≠ 0) →
        TestFeatures deps { env with Run := run } t = TestFeatures deps env t := by
  by_cases hcfg : env.junitReportPath = ""
  · refine ⟨suiteWith deps (prettyOptions env t dir), ?_, ?_, ?_, ?_⟩
    · rw [TestFeatures_without_report deps env t dir files hAbs hGlob hne hcfg]
      by_cases hrun : env.Run (suiteWith deps (prettyOptions env t dir)) = 0 <;>
        simp [TestRun.suites, hrun]
    · rw [TestFeatures_without_report deps env t dir files hAbs hGlob hne hcfg]
    · rw [TestFeatures_without_report deps env t dir files hAbs hGlob hne hcfg]
      simp
    · intro run hrun
      rw [TestFeatures_without_report deps env t dir files hAbs hGlob hne hcfg,
        TestFeatures_without_report deps { env with Run := run } t dir files hAbs hGlob hne
          hcfg]
      have hs : suiteWith deps (prettyOptions { env with Run := run } t dir) =
          suiteWith deps (prettyOptions env t dir) := rfl
      simp only [hs]
      by_cases h0 : env.Run (suiteWith deps (prettyOptions env t dir)) = 0
      · have h1 : run (suiteWith deps (prettyOptions env t dir)) = 0 := by
          by_contra hc
          exact (hrun.mp hc) h0
        simp [h0, h1]
      · have h1 : run (suiteWith deps (prettyOptions env t dir)) ≠ 0 := hrun.mpr h0
        simp [h0, h1]
  · rcases hrep with hrep | ⟨f, hCreate⟩
    · exact absurd hrep hcfg
    · refine ⟨suiteWith deps
        { prettyOptions env t dir with Format := "junit", Output := io.Writer.File f },
        ?_, ?_, ?_, ?_⟩
      · rw [TestFeatures_with_report deps env t dir files f hAbs hGlob hne hcfg hCreate]
        by_cases hrun : env.Run (suiteWith deps
          { prettyOptions env t dir with Format := "junit", Output := io.Writer.File f }) = 0 <;>
          simp [TestRun.suites, hrun]
      · rw [TestFeatures_with_report deps env t dir files f hAbs hGlob hne hcfg hCreate]
      · rw [TestFeatures_with_report deps env t dir files f hAbs hGlob hne hcfg hCreate]
        simp
      · intro run hrun
        rw [TestFeatures_with_report deps env t dir files f hAbs hGlob hne hcfg hCreate,
          TestFeatures_with_report deps { env with Run := run } t dir files f hAbs hGlob hne
            hcfg hCreate]
        have hs : suiteWith deps
            { prettyOptions { env with Run := run } t dir with
              Format := "junit", Output := io.Writer.File f } =
            suiteWith deps
              { prettyOptions env t dir with Format := "junit", Output := io.Writer.File f } :=
          rfl
        simp only [hs]
        by_cases h0 : env.Run (suiteWith deps
          { prettyOptions env t dir with Format := "junit", Output := io.Writer.File f }) = 0
        · have h1 : run (suiteWith deps
            { prettyOptions env t dir with Format := "junit", Output := io.Writer.File f }) = 0 := by
            by_contra hc
            exact (hrun.mp hc) h0
          simp [h0, h1]
        · have h1 : run (suiteWith deps
            { prettyOptions env t dir with Format := "junit", Output := io.Writer.File f }) ≠ 0 :=
            hrun.mpr h0
          simp [h0, h1]

/-- Witness for C2: one feature file, no report destination and a suite status of `1`
mark the run failed without a fatal error. -/
theorem TestFeatures_failed_iff_status_nonzero_witness :
    sampleEnv.Glob (sampleEnv.Join "/repo/features" "*.feature") =
      Except.ok ["/repo/features/validate.feature"] ∧
    (TestFeatures sampleDeps sampleEnv sampleT).exited = false ∧
    (TestFeatures sampleDeps sampleEnv sampleT).failed = true :=
  match TestFeatures_failed_iff_status_nonzero sampleDeps sampleEnv sampleT "/repo/features"
    ["/repo/features/validate.feature"] rfl rfl (List.cons_ne_nil _ _) (Or.inl rfl) with
  | ⟨_, _, hexited, hfailed, _⟩ =>
    ⟨rfl, hexited, hfailed.mpr (show (1 : Int) ≠ 0 by decide)⟩

/-- C3: whenever a report destination is configured and creating its file fails,
`TestFeatures` ends in a fatal error with the test marked failed and no suite is ever
run; when the earlier checks have passed the fatal error is the one about the report
and follows the one creation attempt. When no destination is configured, no file
creation is attempted. -/
theorem TestFeatures_report_creation_failure_is_fatal (deps : HookDeps) (env : Env)
    (t : testing.T) :
    (env.junitReportPath ≠ "" →
      (∃ err, env.Create env.junitReportPath = Except.error err) →
      (TestFeatures deps env t).exited = true ∧
      (TestFeatures deps env t).failed = true ∧
      (TestFeatures deps env t).suites = []) ∧
    (∀ dir files err, env.junitReportPath ≠ "" →
      env.Abs "../features" = Except.ok dir →
      env.Glob (env.Join dir "*.feature") = Except.ok files →
      files ≠ [] →
      env.Create env.junitReportPath = Except.error err →
      (TestFeatures deps env t).creates = [env.junitReportPath] ∧
      (TestFeatures deps env t).events.getLast? =
        some (Event.Fatal ("failed to create JUnit report: " ++ err.msg))) ∧
    (env.junitReportPath = "" → (TestFeatures deps env t).creates = []) := by
  have hstart : (start env).creates = [] := by
    unfold start
    by_cases h : env.junitReportPath = "" <;> simp [h, TestRun.emit, TestRun.creates]
  refine ⟨?_, ?_, ?_⟩
  · rintro hcfg ⟨err, hCreate⟩
    cases ha : env.Abs "../features" with
    | error e =>
      rw [TestFeatures_Abs_error deps env t e ha]
      exact ⟨rfl, rfl, by rw [TestRun.suites_Fatal, start_suites]⟩
    | ok dir =>
      have hfatal := TestFeatures_stops_without_files deps env t dir ha
      cases hg : env.Glob (env.Join dir "*.feature") with
      | error e => exact hfatal (by intro files hf; rw [hg] at hf; cases hf)
      | ok files =>
        by_cases hnil : files = []
        · exact hfatal (by intro fs hf; rw [hg] at hf; cases hf; exact hnil)
        · rw [TestFeatures_Create_error deps env t dir files err ha hg hnil hcfg hCreate]
          refine ⟨rfl, rfl, ?_⟩
          rw [TestRun.suites_Fatal, TestRun.suites_emit _ _ (by intro suite h; cases h),
            TestRun.suites_emit _ _ (by intro suite h; cases h),
            TestRun.suites_emit _ _ (by intro suite h; cases h), start_suites]
  · intro dir files err hcfg ha hg hnil hCreate
    rw [TestFeatures_Create_error deps env t dir files err ha hg hnil hcfg hCreate]
    refine ⟨?_, TestRun.getLast_Fatal _ _⟩
    simp [TestRun.creates, TestRun.Fatal, TestRun.emit, List.filterMap_append, start, hcfg]
  · intro hcfg
    cases ha : env.Abs "../features" with
    | error e =>
      rw [TestFeatures_Abs_error deps env t e ha]
      simpa [TestRun.creates, TestRun.Fatal, List.filterMap_append] using hstart
    | ok dir =>
      cases hg : env.Glob (env.Join dir "*.feature") with
      | error e =>
        rw [TestFeatures_Glob_error deps env t dir e ha hg]
        simpa [TestRun.creates, TestRun.Fatal, TestRun.emit, List.filterMap_append] using hstart
      | ok files =>
        by_cases hnil : files = []
        · subst hnil
          rw [TestFeatures_Glob_empty deps env t dir ha hg]
          simpa [TestRun.creates, TestRun.Fatal, TestRun.emit, List.filterMap_append]
            using hstart
        · rw [TestFeatures_without_report deps env t dir files ha hg hnil hcfg]
          by_cases hrun : env.Run (suiteWith deps (prettyOptions env t dir)) = 0 <;>
            simp [TestRun.creates, hrun]

/-- Witness for C3: a destination that cannot be created ends the run in the fatal
error about the report before any suite runs; without a destination nothing is created. -/
theorem TestFeatures_report_creation_failure_is_fatal_witness :
    badReportEnv.junitReportPath ≠ "" ∧
    (TestFeatures sampleDeps badReportEnv sampleT).exited = true ∧
    (TestFeatures sampleDeps badReportEnv sampleT).suites = [] ∧
    (TestFeatures sampleDeps badReportEnv sampleT).events.getLast? =
      some (Event.Fatal ("failed to create JUnit report: " ++ "no such file or directory")) ∧
    (TestFeatures sampleDeps sampleEnv sampleT).creates = [] :=
  have hcfg : badReportEnv.junitReportPath ≠ "" := by decide
  have h := TestFeatures_report_creation_failure_is_fatal sampleDeps badReportEnv sampleT
  have hfatal := h.1 hcfg ⟨{ msg := "no such file or directory" }, rfl⟩
  have hlast := (h.2.1 "/repo/features" ["/repo/features/validate.feature"]
    { msg := "no such file or directory" } hcfg rfl rfl (List.cons_ne_nil _ _) rfl).2
  ⟨hcfg, hfatal.1, hfatal.2.2, hlast,
    (TestFeatures_report_creation_failure_is_fatal sampleDeps sampleEnv sampleT).2.2 rfl⟩

/-- C6, as the code has it: with feature files found, the run options that
`TestFeatures` hands to the runner carry one format and one output. When a report
destination is configured and its file created, they are the format "junit" and that
file, standard output being replaced; the format "pretty" on standard output is what
they carry when no destination is configured. -/
theorem TestFeatures_options_have_one_sink (deps : HookDeps) (env : Env) (t : testing.T)
    (dir : String) (files : List String)
    (hAbs : env.Abs "../features" = Except.ok dir)
    (hGlob : env.Glob (env.Join dir "*.feature") = Except.ok files)
    (hne : files ≠ []) :
    (∀ f, env.junitReportPath ≠ "" → env.Create env.junitReportPath = Except.ok f →
      (TestFeatures deps env t).suites.map (fun s => (s.Options.Format, s.Options.Output)) =
        [("junit", io.Writer.File f)]) ∧
    (env.junitReportPath = "" →
      (TestFeatures deps env t).suites.map (fun s => (s.Options.Format, s.Options.Output)) =
        [("pretty", io.Writer.Stdout)]) := by
  constructor
  · intro f hcfg hCreate
    rw [TestFeatures_with_report deps env t dir files f hAbs hGlob hne hcfg hCreate]
    by_cases hrun : env.Run (suiteWith deps
      { prettyOptions env t dir with Format := "junit", Output := io.Writer.File f }) = 0 <;>
      simp [TestRun.suites, hrun, suiteWith]
  · intro hcfg
    rw [TestFeatures_without_report deps env t dir files hAbs hGlob hne hcfg]
    by_cases hrun : env.Run (suiteWith deps (prettyOptions env t dir)) = 0 <;>
      simp [TestRun.suites, hrun, suiteWith, prettyOptions]

/-- Witness for C6 as amended: a destination "report.xml" whose file is created. -/
theorem TestFeatures_options_have_one_sink_witness :
    reportEnv.junitReportPath ≠ "" ∧
    reportEnv.Create reportEnv.junitReportPath = Except.ok { name := "report.xml" } ∧
    (TestFeatures sampleDeps reportEnv sampleT).suites.map
        (fun s => (s.Options.Format, s.Options.Output)) =
      [("junit", io.Writer.File { name := "report.xml" })] :=
  have hcfg : reportEnv.junitReportPath ≠ "" := by decide
  ⟨hcfg, rfl,
    (TestFeatures_options_have_one_sink sampleDeps reportEnv sampleT "/repo/features"
      ["/repo/features/validate.feature"] rfl rfl (List.cons_ne_nil _ _)).1
      { name := "report.xml" } hcfg rfl⟩

/-- C6 as stated fails: with the destination "report.xml" configured and created, the
options handed to the runner name the file as their only output and "junit" as their
only format; standard output is not among the outputs. -/
theorem TestFeatures_report_replaces_stdout :
    (TestFeatures sampleDeps reportEnv sampleT).suites.map
        (fun s => (s.Options.Format, s.Options.Output)) =
      [("junit", io.Writer.File { name := "report.xml" })] ∧
    io.Writer.Stdout ∉
      (TestFeatures sampleDeps reportEnv sampleT).suites.map (fun s => s.Options.Output) ∧
    "pretty" ∉
      (TestFeatures sampleDeps reportEnv sampleT).suites.map (fun s => s.Options.Format) := by
  have hcfg : reportEnv.junitReportPath ≠ "" := by decide
  rw [TestFeatures_with_report sampleDeps reportEnv sampleT "/repo/features"
    ["/repo/features/validate.feature"] { name := "report.xml" } rfl rfl
    (List.cons_ne_nil _ _) hcfg rfl]
  have hrun : reportEnv.Run (suiteWith sampleDeps
      { prettyOptions reportEnv sampleT "/repo/features" with
        Format := "junit", Output := io.Writer.File { name := "report.xml" } }) = 1 := rfl
  simp [TestRun.suites, hrun, suiteWith]

/-- C7, as the code has it: when the seed flag is not supplied and the configuration
checks pass, the value `TestFeatures` hands to the runner in `Options.Randomize` is the
default `-1` of the flag, which differs from `0`, the one value for which the runner
leaves the scenario order alone; in general it hands over the value of the flag. -/
theorem TestFeatures_default_seed_is_minus_one (deps : HookDeps) (env : Env)
    (t : testing.T) (dir : String) (files : List String)
    (hAbs : env.Abs "../features" = Except.ok dir)
    (hGlob : env.Glob (env.Join dir "*.feature") = Except.ok files)
    (hne : files ≠ [])
    (hrep : env.junitReportPath = "" ∨
      ∃ f, env.Create env.junitReportPath = Except.ok f) :
    (TestFeatures deps env t).suites.map (fun s => s.Options.Randomize) = [seed env.args] ∧
    (env.args.seed = none →
      (TestFeatures deps env t).suites.map (fun s => s.Options.Randomize) = [-1] ∧
      (TestFeatures deps env t).suites.map (fun s => s.Options.shuffles) = [true]) ∧
    (∀ s ∈ (TestFeatures deps env t).suites, s.Options.shuffles = false ↔ seed env.args = 0) := by
  have key : (TestFeatures deps env t).suites.map (fun s => s.Options.Randomize) =
      [seed env.args] ∧
      ∀ s ∈ (TestFeatures deps env t).suites, s.Options.Randomize = seed env.args := by
    by_cases hcfg : env.junitReportPath = ""
    · rw [TestFeatures_without_report deps env t dir files hAbs hGlob hne hcfg]
      by_cases hrun : env.Run (suiteWith deps (prettyOptions env t dir)) = 0 <;>
        simp [TestRun.suites, hrun, suiteWith, prettyOptions]
    · rcases hrep with hrep | ⟨f, hCreate⟩
      · exact absurd hrep hcfg
      · rw [TestFeatures_with_report deps env t dir files f hAbs hGlob hne hcfg hCreate]
        by_cases hrun : env.Run (suiteWith deps
          { prettyOptions env t dir with Format := "junit", Output := io.Writer.File f }) = 0 <;>
          simp [TestRun.suites, hrun, suiteWith, prettyOptions]
  refine ⟨key.1, ?_, ?_⟩
  · intro hseed
    have hs : seed env.args = -1 := by simp [seed, hseed]
    have h1 := key.1
    rw [hs] at h1
    refine ⟨h1, ?_⟩
    have hmap : (TestFeatures deps env t).suites.map (fun s => s.Options.shuffles) =
        ((TestFeatures deps env t).suites.map (fun s => s.Options.Randomize)).map
          (fun r => r != 0) := by
      simp [List.map_map, Function.comp_def, godog.Options.shuffles]
    rw [hmap, h1]
    rfl
  · intro s hs
    have hr := key.2 s hs
    simp [godog.Options.shuffles, hr]

/-- Witness for C7 as amended: a command line without flags. -/
theorem TestFeatures_default_seed_is_minus_one_witness :
    sampleEnv.args.seed = none ∧
    (TestFeatures sampleDeps sampleEnv sampleT).suites.map (fun s => s.Options.Randomize) =
      [-1] :=
  ⟨rfl, ((TestFeatures_default_seed_is_minus_one sampleDeps sampleEnv sampleT "/repo/features"
    ["/repo/features/validate.feature"] rfl rfl (List.cons_ne_nil _ _) (Or.inl rfl)).2.1
    rfl).1⟩

/-- C7 as stated fails: with no seed flag on the command line the runner receives
`Randomize = -1`, a value under which it shuffles the scenario order (with a seed it
picks itself), not the value `0` under which it does not. -/
theorem TestFeatures_default_seed_shuffles :
    (TestFeatures sampleDeps sampleEnv sampleT).suites.map
        (fun s => (s.Options.Randomize, s.Options.shuffles)) = [(-1, true)] := by
  rw [TestFeatures_without_report sampleDeps sampleEnv sampleT "/repo/features"
    ["/repo/features/validate.feature"] rfl rfl (List.cons_ne_nil _ _) rfl]
  have hrun : sampleEnv.Run (suiteWith sampleDeps
      (prettyOptions sampleEnv sampleT "/repo/features")) = 1 := rfl
  simp [TestRun.suites, hrun, suiteWith, prettyOptions, godog.Options.shuffles, seed,
    sampleEnv, noFlags]

end acceptance
